import Mathlib

/-!
# Pattern Learning Engine — formal model and verification

This file embeds the Pattern Learning Engine of the `aios-core` repository
(the Capture, Validator and Store components of
`.aios-core/workflow-intelligence/learning/`) in Lean 4 and proves the
frozen claims about it.

The repository snapshot contains only the unit/integration test files of the
engine (`tests` for `pattern-capture`, `pattern-validator`, `pattern-store`);
the production modules themselves are not part of the snapshot.  Every
operational definition below is therefore modelled from the specification's
own description of those modules (each doc comment says so explicitly), kept
consistent with the behaviour the test files assert.

Modelling conventions:
* JavaScript numbers carrying success rates / similarity scores are embedded
  as `ℚ` (all values involved are small exact fractions).
* Pattern ids are embedded as `Nat`; id generation is made explicit by
  threading a counter (`Store.nextId`) or a caller-supplied nonce.
* Timestamps are embedded as `Nat` values passed in by the caller.
* `null` / non-object inputs of the dynamically typed API are embedded with
  explicit inductive alternatives (`SessionInput`, `ReadResult`); fields a
  caller may omit are `Option`s.
* All functions are total; "never throws" is represented by totality plus
  the structured error results the spec prescribes.
-/

namespace PatternLearning

/-- Lifecycle status of a stored pattern: the four-value enum of §3. -/
inductive PStatus where
  | pending
  | active
  | promoted
  | deprecated
deriving DecidableEq, Repr

/-- Modelled from the spec: the persisted Pattern record of §3
(`pattern-store.js` / `pattern-capture.js` are not in the snapshot).
`id` is embedded as `Nat`, timestamps as `Nat`. -/
structure Pattern where
  id : Nat
  sequence : List String
  agents : List String
  workflow : Option String
  occurrences : Nat
  successRate : ℚ
  status : PStatus
  firstSeen : Nat
  lastSeen : Nat
  lastUpdated : Nat
deriving DecidableEq, Repr

/-- Modelled from the spec: the normalization rule of §4.1 — strip the
leading `*` marker from a command before storing or comparing
(`pattern-capture.js` is not in the snapshot). -/
def normalizeCommand (c : String) : String :=
  match c.data with
  | '*' :: rest => String.mk rest
  | _ => c

/-- Modelled from the spec: Jaccard index of two sequences treated as sets —
intersection-over-union (§4.2; `pattern-validator.js` is not in the
snapshot).  An empty union yields 0. -/
def jaccard (a b : List String) : ℚ :=
  let u := (a.toFinset ∪ b.toFinset).card
  if u = 0 then 0 else ((a.toFinset ∩ b.toFinset).card : ℚ) / u

/-- Number of positions (up to the shorter length) where both sequences hold
the same command. -/
def orderMatches (a b : List String) : Nat :=
  ((a.zip b).filter (fun p => decide (p.1 = p.2))).length

/-- Modelled from the spec: the fraction of positions, up to the shorter
length, where both sequences have the same command (§4.2).  Empty overlap
yields 0. -/
def orderMatchRatio (a b : List String) : ℚ :=
  let m := min a.length b.length
  if m = 0 then 0 else (orderMatches a b : ℚ) / m

/-- Modelled from the spec: the combined similarity score
`0.4 * jaccard + 0.6 * orderMatchRatio` of §4.2. -/
def combinedSimilarity (a b : List String) : ℚ :=
  (2 / 5) * jaccard a b + (3 / 5) * orderMatchRatio a b

/-- Default duplicate-similarity threshold (0.85, §4.2 / §6). -/
def defaultDuplicateThreshold : ℚ := 17 / 20

/-- Result of `Validator.isDuplicate`: `similarity` is only reported for
near-duplicates, never for exact matches. -/
structure DupResult where
  isDuplicate : Bool
  duplicateOf : Option Nat := none
  exact : Bool := false
  similarity : Option ℚ := none
deriving DecidableEq, Repr

/-- One step of the best-match scan: keep the running best, replacing it
only when the next pattern scores strictly higher. -/
def bestStep (cand : List String) (acc : Option (Pattern × ℚ)) (e : Pattern) :
    Option (Pattern × ℚ) :=
  let s := combinedSimilarity cand e.sequence
  match acc with
  | none => some (e, s)
  | some pr => if pr.2 < s then some (e, s) else acc

/-- Best (highest) combined-similarity match of a candidate sequence among
the existing patterns, scanning left to right and keeping the first maximum. -/
def bestMatch (cand : List String) (existing : List Pattern) : Option (Pattern × ℚ) :=
  existing.foldl (bestStep cand) none

/-- Modelled from the spec: `Validator.isDuplicate` (§4.2;
`pattern-validator.js` is not in the snapshot).  The candidate is given by
its sequence.  An element-wise identical sequence is an exact duplicate
(no similarity reported); otherwise the best combined score across the
existing patterns is compared against the threshold. -/
def isDuplicate (threshold : ℚ) (candSeq : List String) (existing : List Pattern) : DupResult :=
  match existing.find? (fun e => decide (e.sequence = candSeq)) with
  | some e => { isDuplicate := true, duplicateOf := some e.id, exact := true }
  | none =>
    match bestMatch candSeq existing with
    | some (e, s) =>
      if threshold ≤ s then
        { isDuplicate := true, duplicateOf := some e.id, similarity := some s }
      else
        { isDuplicate := false }
    | none => { isDuplicate := false }

/-- The persisted store structure `{ version, patterns }` of §6. -/
structure StoreData where
  version : String
  patterns : List Pattern
deriving Repr

/-- The empty structure substituted for a missing/corrupt backing file. -/
def emptyStoreData : StoreData := { version := "1.0", patterns := [] }

/-- Outcome of reading the backing file: it may be absent, empty, fail to
parse, or parse into a store structure. -/
inductive ReadResult where
  | fileMissing
  | fileEmpty
  | parseError
  | parsed (data : StoreData)

/-- Modelled from the spec: the recovery behaviour of `Store.load` (§4.3 /
§7; `pattern-store.js` is not in the snapshot).  A missing, empty or
unparseable backing file yields the empty structure instead of an error. -/
def loadFrom : ReadResult → StoreData
  | .parsed d => d
  | .fileMissing => emptyStoreData
  | .fileEmpty => emptyStoreData
  | .parseError => emptyStoreData

/-- Modelled from the spec: the in-process state of a `PatternStore`
(configuration plus current records; `pattern-store.js` is not in the
snapshot).  `nextId` makes unique id assignment explicit. -/
structure Store where
  maxPatterns : Nat := 100
  pruneThreshold : ℚ := 4 / 5
  patterns : List Pattern := []
  nextId : Nat := 0
deriving Repr

/-- A store with default configuration and no records. -/
def Store.empty : Store := {}

/-- Pruning strategy: the standard status-priority order, or the optional
`lowest_success_rate` refinement that additionally orders same-priority
candidates by ascending success rate (§4.3). -/
inductive PruneStrategy where
  | standard
  | lowestSuccessRate
deriving DecidableEq, Repr

/-- Ascending-success-rate ordering of a slice of same-status patterns. -/
def sortBySuccessRateAsc (l : List Pattern) : List Pattern :=
  List.insertionSort (fun a b => a.successRate ≤ b.successRate) l

/-- The patterns of one status class, in removal order for the strategy. -/
def statusClass (strategy : PruneStrategy) (ps : List Pattern) (s : PStatus) : List Pattern :=
  let base := ps.filter (fun p => decide (p.status = s))
  match strategy with
  | .standard => base
  | .lowestSuccessRate => sortBySuccessRateAsc base

/-- Modelled from the spec: the removal-priority ordering used by
`Store.prune` — deprecated records first, then pending, then active, with
promoted records last (§4.3). -/
def pruneOrder (strategy : PruneStrategy) (ps : List Pattern) : List Pattern :=
  statusClass strategy ps .deprecated ++
    (statusClass strategy ps .pending ++
      (statusClass strategy ps .active ++ statusClass strategy ps .promoted))

/-- The `{ pruned, remaining }` summary returned by `Store.prune`. -/
structure PruneResult where
  pruned : Nat
  remaining : Nat
deriving DecidableEq, Repr

/-- Modelled from the spec: `Store.prune` (§4.3; `pattern-store.js` is not
in the snapshot).  Removes records down to `keepCount`, taking removal
candidates in priority order (deprecated, then pending, then active, then
promoted); the kept records are the remainder of that ordering. -/
def Store.prune (st : Store) (keepCount : Nat)
    (strategy : PruneStrategy) : PruneResult × Store :=
  let n := st.patterns.length - keepCount
  let kept := (pruneOrder strategy st.patterns).drop n
  (⟨n, kept.length⟩, { st with patterns := kept })

/-- The prune trigger level: `pruneThreshold * maxPatterns` (§4.3). -/
def Store.pruneLimit (st : Store) : ℚ := st.pruneThreshold * st.maxPatterns

/-- Modelled from the spec: the automatic prune a save performs when the
store's size reaches or exceeds the prune threshold fraction of the maximum,
bringing the collection back under that fraction (§4.3). -/
def Store.autoPrune (st : Store) : Store :=
  if st.pruneLimit ≤ (st.patterns.length : ℚ) then
    (st.prune (⌈st.pruneLimit⌉₊ - 1) .standard).2
  else st

/-- The action a save reports. -/
inductive SaveAction where
  | created
  | updated
deriving DecidableEq, Repr

/-- An incoming pattern handed to `Store.save`; fields a caller may omit are
options, normalized to the §4.3 defaults inside `save`. -/
structure PatternInput where
  sequence : List String
  agents : List String := []
  workflow : Option String := none
  occurrences : Option Nat := none
  successRate : Option ℚ := none
  status : Option PStatus := none
deriving Repr

/-- The `{ action, pattern }` result of `Store.save`. -/
structure SaveResult where
  action : SaveAction
  pattern : Pattern
deriving Repr

/-- The record a `save` creates for a sequence not yet in the store: the
incoming fields with missing ones normalized to the §4.3 defaults
(`occurrences:1`, `successRate:1.0`, `status:'pending'`), a fresh unique id
and fresh timestamps. -/
def mkCreated (st : Store) (p : PatternInput) (now : Nat) : Pattern :=
  { id := st.nextId
    sequence := p.sequence
    agents := p.agents
    workflow := p.workflow
    occurrences := p.occurrences.getD 1
    successRate := p.successRate.getD 1
    status := p.status.getD .pending
    firstSeen := now
    lastSeen := now
    lastUpdated := now }

/-- The in-place update a `save` applies to the existing record with the
same sequence: occurrences + 1, success rate replaced by the plain
arithmetic mean of the stored and incoming values, `lastSeen` refreshed. -/
def mkUpdated (e : Pattern) (p : PatternInput) (now : Nat) : Pattern :=
  { e with
    occurrences := e.occurrences + 1
    successRate := (e.successRate + p.successRate.getD 1) / 2
    lastSeen := now }

/-- The store right after `save` appends a newly created record (before the
auto-prune check). -/
def afterCreate (st : Store) (p : PatternInput) (now : Nat) : Store :=
  { st with
      patterns := st.patterns ++ [mkCreated st p now]
      nextId := st.nextId + 1 }

/-- The store right after `save` updates the record `e` in place (before the
auto-prune check). -/
def afterUpdate (st : Store) (e : Pattern) (p : PatternInput) (now : Nat) : Store :=
  { st with
      patterns := st.patterns.map (fun q => if q.id = e.id then mkUpdated e p now else q) }

/-- Modelled from the spec: `Store.save` (§4.3; `pattern-store.js` is not in
the snapshot).  Missing fields are normalized to defaults (`occurrences:1`,
`successRate:1.0`, `status:'pending'`, fresh timestamps).  An existing
record with an identical sequence is updated in place (`mkUpdated`);
otherwise a new record is created with a fresh unique id and `firstSeen`
(`mkCreated`).  The automatic prune check runs after the mutation. -/
def Store.save (st : Store) (p : PatternInput) (now : Nat) : SaveResult × Store :=
  match st.patterns.find? (fun e => decide (e.sequence = p.sequence)) with
  | some e => (⟨.updated, mkUpdated e p now⟩, (afterUpdate st e p now).autoPrune)
  | none => (⟨.created, mkCreated st p now⟩, (afterCreate st p now).autoPrune)

/-- A whole sequence of saves, each with its input and timestamp. -/
def Store.saveMany (st : Store) (inputs : List (PatternInput × Nat)) : Store :=
  inputs.foldl (fun s pr => (s.save pr.1 pr.2).2) st

/-- One ranked `findSimilar` item: a stored pattern with its score. -/
structure SimilarResult where
  pattern : Pattern
  similarity : ℚ
deriving Repr

/-- Descending-similarity order on ranked results. -/
def simDesc (a b : SimilarResult) : Prop := b.similarity ≤ a.similarity

instance : DecidableRel simDesc :=
  fun a b => inferInstanceAs (Decidable (b.similarity ≤ a.similarity))

instance : IsTotal SimilarResult simDesc :=
  ⟨fun a b => le_total b.similarity a.similarity⟩

instance : IsTrans SimilarResult simDesc :=
  ⟨fun _ _ _ h1 h2 => le_trans h2 h1⟩

/-- Modelled from the spec: `Store.findSimilar` (§4.3; `pattern-store.js` is
not in the snapshot).  A null or empty query yields `[]`; otherwise each
stored pattern is scored with the Validator's combined formula, zero-score
items are dropped, and the rest are sorted by similarity descending. -/
def Store.findSimilar (st : Store) (query : Option (List String)) : List SimilarResult :=
  match query with
  | none => []
  | some seq =>
    if seq.isEmpty then []
    else
      let scored :=
        st.patterns.map (fun p => SimilarResult.mk p (combinedSimilarity seq p.sequence))
      List.insertionSort simDesc (scored.filter (fun r => decide (0 < r.similarity)))

/-- The key workflow commands recognized by the engine (§4.1 / glossary;
listed from the command vocabulary the spec and the tests use). -/
def KEY_WORKFLOW_COMMANDS : List String :=
  ["create-story", "validate-story-draft", "develop", "review-qa",
   "apply-qa-fixes", "run-tests", "create-pr"]

/-- The workflow-ending commands that terminate a buffered session (§4.1;
`create-pr` ends a workflow in the capture tests, `develop`/`review-qa`
do not). -/
def WORKFLOW_ENDING_COMMANDS : List String := ["create-pr"]

/-- Modelled from the spec: the configuration surface of `PatternCapture`
(§4.1 / §6; `pattern-capture.js` is not in the snapshot). -/
structure CaptureConfig where
  enabled : Bool := true
  minSequenceLength : Nat := 3
  keyCommands : List String := KEY_WORKFLOW_COMMANDS
  endingCommands : List String := WORKFLOW_ENDING_COMMANDS
deriving Repr

/-- Modelled from the spec: best-effort workflow classification (§4.1) — a
sequence containing `develop`, `review-qa` and a QA-fix/test step is
`story_development`; story-creation/validation steps followed by `develop`
are `story_creation`; anything else is unclassified. -/
def classifyWorkflow (seq : List String) : Option String :=
  if "develop" ∈ seq ∧ "review-qa" ∈ seq ∧
      ("apply-qa-fixes" ∈ seq ∨ "run-tests" ∈ seq) then
    some "story_development"
  else if ("create-story" ∈ seq ∨ "validate-story-draft" ∈ seq) ∧ "develop" ∈ seq then
    some "story_creation"
  else
    none

/-- The fields of an already-complete session record handed to
`captureSession`; `commands` may be absent. -/
structure SessionData where
  commands : Option (List String) := none
  agentSequence : List String := []
  success : Bool := false
deriving Repr

/-- A dynamically typed `captureSession` argument: `null`, some non-object
value, or an object with the session fields. -/
inductive SessionInput where
  | nullValue
  | nonObject
  | obj (d : SessionData)

/-- The structured `{ valid, reason?, pattern? }` result of
`captureSession`. -/
structure CaptureResult where
  valid : Bool
  reason : Option String := none
  pattern : Option Pattern := none
deriving Repr

/-- Modelled from the spec: `Capture.captureSession` (§4.1;
`pattern-capture.js` is not in the snapshot).  Rejects, with a
human-readable reason and without throwing, when capture is disabled, the
input is null/not an object/has no commands array, the session was not
successful, or the normalized sequence is below the configured minimum
length; otherwise returns a candidate pattern with `occurrences:1`,
`successRate:1.0`, `status:'pending'`, workflow classification applied and
a fresh id (the supplied nonce).  Timestamps are left for the Store to
set. -/
def captureSession (cfg : CaptureConfig) (input : SessionInput) (nonce : Nat) : CaptureResult :=
  if cfg.enabled = false then
    { valid := false, reason := some "Pattern capture is disabled" }
  else
    match input with
    | .nullValue => { valid := false, reason := some "Invalid session data" }
    | .nonObject => { valid := false, reason := some "Invalid session data" }
    | .obj d =>
      match d.commands with
      | none => { valid := false, reason := some "Invalid session data" }
      | some cmds =>
        if d.success = false then
          { valid := false, reason := some "Session was not successful" }
        else
          let seq := cmds.map normalizeCommand
          if seq.length < cfg.minSequenceLength then
            { valid := false, reason := some "Sequence too short" }
          else
            { valid := true
              pattern := some
                { id := nonce
                  sequence := seq
                  agents := d.agentSequence
                  workflow := classifyWorkflow seq
                  occurrences := 1
                  successRate := 1
                  status := .pending
                  firstSeen := 0
                  lastSeen := 0
                  lastUpdated := 0 } }

/-- A per-session accumulation buffer: `{ commands, agents, success }`
(§3). -/
structure SessionBuffer where
  commands : List String := []
  agents : List String := []
  success : Bool := true
deriving Repr

/-- The process-local keyed map of session buffers, as an association
list. -/
structure CaptureState where
  buffers : List (String × SessionBuffer) := []
deriving Repr

/-- The `context` argument of `onTaskComplete`. -/
structure TaskContext where
  sessionId : Option String := none
  agentId : Option String := none
deriving Repr

/-- The `{ captured, reason?, pattern? }` result of `onTaskComplete`. -/
structure TaskResult where
  captured : Bool
  reason : Option String := none
  pattern : Option Pattern := none
deriving Repr

/-- Strip the leading `@` marker from an agent identifier. -/
def stripAgentMarker (a : String) : String :=
  match a.data with
  | '@' :: rest => String.mk rest
  | _ => a

/-- Look up the buffer of a session id (a fresh buffer if absent). -/
def CaptureState.getBuffer (st : CaptureState) (sid : String) : SessionBuffer :=
  match st.buffers.find? (fun kv => decide (kv.1 = sid)) with
  | some kv => kv.2
  | none => {}

/-- Write back the buffer of a session id. -/
def CaptureState.setBuffer (st : CaptureState) (sid : String) (buf : SessionBuffer) : CaptureState :=
  if st.buffers.any (fun kv => decide (kv.1 = sid)) then
    ⟨st.buffers.map (fun kv => if kv.1 = sid then (sid, buf) else kv)⟩
  else
    ⟨st.buffers ++ [(sid, buf)]⟩

/-- Destroy the buffer of a session id. -/
def CaptureState.removeBuffer (st : CaptureState) (sid : String) : CaptureState :=
  ⟨st.buffers.filter (fun kv => decide (kv.1 ≠ sid))⟩

/-- Record an agent identifier in the buffer's agent set, stripping the
leading `@` marker; the agent set has set semantics. -/
def addAgent (buf : SessionBuffer) (agentId? : Option String) : SessionBuffer :=
  match agentId? with
  | none => buf
  | some a =>
    let a' := stripAgentMarker a
    if a' ∈ buf.agents then buf else { buf with agents := buf.agents ++ [a'] }

/-- Modelled from the spec: `Capture.onTaskComplete` (§4.1;
`pattern-capture.js` is not in the snapshot).  Appends the normalized
command to the session's buffer and records the agent (marker stripped);
a workflow-ending command immediately attempts extraction from the buffer
(via `captureSession`) and clears the buffer, any other command leaves the
workflow in progress. -/
def onTaskComplete (cfg : CaptureConfig) (cmd : String) (ctx : TaskContext) (nonce : Nat)
    (st : CaptureState) : TaskResult × CaptureState :=
  if cfg.enabled = false then
    ({ captured := false, reason := some "disabled" }, st)
  else
    let sid := ctx.sessionId.getD ("session-" ++ toString nonce)
    let buf0 := st.getBuffer sid
    let buf1 := { buf0 with commands := buf0.commands ++ [normalizeCommand cmd] }
    let buf := addAgent buf1 ctx.agentId
    if normalizeCommand cmd ∈ cfg.endingCommands then
      let r := captureSession cfg
        (.obj { commands := some buf.commands, agentSequence := buf.agents, success := buf.success })
        nonce
      (⟨r.valid, r.reason, r.pattern⟩, st.removeBuffer sid)
    else
      (⟨false, some "workflow_in_progress", none⟩, st.setBuffer sid buf)

end PatternLearning


namespace PatternLearning

/-! ## Shared helper lemmas -/

/-- A store strictly below the prune trigger level is unchanged by the
auto-prune step. -/
lemma autoPrune_of_lt {st : Store} (h : (st.patterns.length : ℚ) < st.pruneLimit) :
    st.autoPrune = st := by
  unfold Store.autoPrune
  rw [if_neg (not_le.mpr h)]

/-- With the default configuration (100 patterns, threshold 4/5), a store
holding at most ten records is unchanged by the auto-prune step. -/
lemma autoPrune_small {st : Store} (hmax : st.maxPatterns = 100)
    (hth : st.pruneThreshold = 4 / 5) (hlen : st.patterns.length ≤ 10) :
    st.autoPrune = st := by
  apply autoPrune_of_lt
  rw [Store.pruneLimit, hmax, hth]
  have h : (st.patterns.length : ℚ) ≤ 10 := by exact_mod_cast hlen
  have h80 : (4 / 5 : ℚ) * (100 : ℕ) = 80 := by norm_num
  rw [h80]
  linarith

/-- Unfolding `Store.save` when no record carries the incoming sequence. -/
lemma save_eq_created (st : Store) (p : PatternInput) (now : Nat)
    (h : st.patterns.find? (fun e => decide (e.sequence = p.sequence)) = none) :
    st.save p now = (⟨.created, mkCreated st p now⟩, (afterCreate st p now).autoPrune) := by
  unfold Store.save
  rw [h]

/-- Unfolding `Store.save` when a record already carries the incoming
sequence. -/
lemma save_eq_updated (st : Store) (p : PatternInput) (now : Nat) {e : Pattern}
    (h : st.patterns.find? (fun e' => decide (e'.sequence = p.sequence)) = some e) :
    st.save p now = (⟨.updated, mkUpdated e p now⟩, (afterUpdate st e p now).autoPrune) := by
  unfold Store.save
  rw [h]

end PatternLearning

namespace PatternLearning

/-! ## C1 -/

/-- C1 (counterexample): `Store.save` keeps an explicitly supplied
`occurrences` value on creation — §4.3 normalizes only *missing* fields to
defaults — so a first save need not return `occurrences = 1` for every
pattern with a non-empty sequence. -/
theorem save_created_keeps_explicit_occurrences :
    (Store.empty.save
        { sequence := ["a", "b", "c"], occurrences := some 5 } 0).1.action = .created ∧
    (Store.empty.save
        { sequence := ["a", "b", "c"], occurrences := some 5 } 0).1.pattern.occurrences = 5 ∧
    (Store.empty.save
        { sequence := ["a", "b", "c"], occurrences := some 5 } 0).1.pattern.occurrences ≠ 1 := by
  have h1 := save_eq_created Store.empty
    { sequence := ["a", "b", "c"], occurrences := some 5 } 0 rfl
  refine ⟨?_, ?_, ?_⟩ <;> rw [h1] <;> simp [mkCreated]

/-- C1 (amended): for every pattern whose sequence is non-empty and whose
`occurrences` field is absent or 1 (so that it normalizes to the default 1),
saving it into an empty store returns action `created` with occurrences 1; a
subsequent save of a pattern with an element-wise equal sequence returns
action `updated` with occurrences 2, and the store then holds exactly one
record for that sequence. -/
theorem save_twice_equal_sequence_updates (p q : PatternInput) (n1 n2 : Nat)
    (hseq : p.sequence ≠ [])
    (hocc : p.occurrences = none ∨ p.occurrences = some 1)
    (hq : q.sequence = p.sequence) :
    (Store.empty.save p n1).1.action = .created ∧
    (Store.empty.save p n1).1.pattern.occurrences = 1 ∧
    ((Store.empty.save p n1).2.save q n2).1.action = .updated ∧
    ((Store.empty.save p n1).2.save q n2).1.pattern.occurrences = 2 ∧
    ((Store.empty.save p n1).2.save q n2).2.patterns.countP
        (fun e => decide (e.sequence = p.sequence)) = 1 := by
  have hocc' : p.occurrences.getD 1 = 1 := by
    rcases hocc with h | h <;> simp [h]
  have hfind1 : Store.empty.patterns.find? (fun e => decide (e.sequence = p.sequence)) = none := rfl
  have h1 := save_eq_created Store.empty p n1 hfind1
  have hauto1 : (afterCreate Store.empty p n1).autoPrune = afterCreate Store.empty p n1 := by
    apply autoPrune_small rfl rfl
    simp [afterCreate, Store.empty]
  rw [hauto1] at h1
  have hfind2 : (afterCreate Store.empty p n1).patterns.find?
      (fun e => decide (e.sequence = q.sequence)) = some (mkCreated Store.empty p n1) := by
    simp [afterCreate, Store.empty, List.find?, mkCreated, hq]
  have h2 := save_eq_updated (afterCreate Store.empty p n1) q n2 hfind2
  have hauto2 : (afterUpdate (afterCreate Store.empty p n1) (mkCreated Store.empty p n1) q
        n2).autoPrune =
      afterUpdate (afterCreate Store.empty p n1) (mkCreated Store.empty p n1) q n2 := by
    apply autoPrune_small rfl rfl
    simp [afterUpdate, afterCreate, Store.empty]
  rw [hauto2] at h2
  refine ⟨?_, ?_, ?_, ?_, ?_⟩
  · rw [h1]
  · rw [h1]; simp [mkCreated, hocc']
  · rw [h1, h2]
  · rw [h1, h2]; simp [mkUpdated, mkCreated, hocc']
  · rw [h1, h2]
    simp [afterUpdate, afterCreate, Store.empty, mkUpdated, mkCreated,
      List.countP, List.countP.go]

/-- C1 witness: the two-save scenario at a concrete input. -/
theorem save_twice_equal_sequence_updates_witness :
    (["a", "b", "c"] ≠ ([] : List String)) ∧
    ((Store.empty.save { sequence := ["a", "b", "c"] } 0).2.save
        { sequence := ["a", "b", "c"] } 1).1.pattern.occurrences = 2 :=
  ⟨by decide,
    (save_twice_equal_sequence_updates { sequence := ["a", "b", "c"] }
      { sequence := ["a", "b", "c"] } 0 1 (by decide) (Or.inl rfl) rfl).2.2.2.1⟩

end PatternLearning

namespace PatternLearning

/-! ## C2 -/

/-- C2: on every re-save of a sequence already in the store, `Store.save`
replaces the stored success rate with the plain arithmetic mean of the
previously stored value and the incoming value (defaulted to 1 when absent),
not an occurrence-weighted mean; in particular saving `successRate 1.0` and
then `successRate 0.5` for the same sequence leaves the stored success rate
at 0.75. -/
theorem save_updates_successRate_mean :
    (∀ (st : Store) (p : PatternInput) (now : Nat) (e : Pattern),
      st.patterns.find? (fun e' => decide (e'.sequence = p.sequence)) = some e →
      (st.save p now).1.action = .updated ∧
      (st.save p now).1.pattern.successRate = (e.successRate + p.successRate.getD 1) / 2) ∧
    ((Store.empty.save
        { sequence := ["develop", "review-qa", "apply-qa-fixes"], successRate := some 1 } 0).2.save
        { sequence := ["develop", "review-qa", "apply-qa-fixes"],
          successRate := some (1 / 2) } 1).1.pattern.successRate = 3 / 4 ∧
    ((Store.empty.save
        { sequence := ["develop", "review-qa", "apply-qa-fixes"], successRate := some 1 } 0).2.save
        { sequence := ["develop", "review-qa", "apply-qa-fixes"],
          successRate := some (1 / 2) } 1).2.patterns.map
        (fun r => r.successRate) = [3 / 4] := by
  have hgen : ∀ (st : Store) (p : PatternInput) (now : Nat) (e : Pattern),
      st.patterns.find? (fun e' => decide (e'.sequence = p.sequence)) = some e →
      (st.save p now).1.action = .updated ∧
      (st.save p now).1.pattern.successRate = (e.successRate + p.successRate.getD 1) / 2 := by
    intro st p now e hfind
    rw [save_eq_updated st p now hfind]
    exact ⟨rfl, rfl⟩
  have h1 := save_eq_created Store.empty
    { sequence := ["develop", "review-qa", "apply-qa-fixes"], successRate := some 1 } 0 rfl
  have hauto1 : (afterCreate Store.empty
      { sequence := ["develop", "review-qa", "apply-qa-fixes"], successRate := some 1 }
      0).autoPrune =
      afterCreate Store.empty
        { sequence := ["develop", "review-qa", "apply-qa-fixes"], successRate := some 1 } 0 := by
    apply autoPrune_small rfl rfl
    simp [afterCreate, Store.empty]
  rw [hauto1] at h1
  have hfind2 : (afterCreate Store.empty
      { sequence := ["develop", "review-qa", "apply-qa-fixes"], successRate := some 1 }
      0).patterns.find?
      (fun e => decide (e.sequence =
        ({ sequence := ["develop", "review-qa", "apply-qa-fixes"],
           successRate := some (1 / 2) } : PatternInput).sequence)) =
      some (mkCreated Store.empty
        { sequence := ["develop", "review-qa", "apply-qa-fixes"], successRate := some 1 } 0) := by
    simp [afterCreate, Store.empty, List.find?, mkCreated]
  have h2 := save_eq_updated
    (afterCreate Store.empty
      { sequence := ["develop", "review-qa", "apply-qa-fixes"], successRate := some 1 } 0)
    { sequence := ["develop", "review-qa", "apply-qa-fixes"], successRate := some (1 / 2) } 1
    hfind2
  have hauto2 : (afterUpdate
      (afterCreate Store.empty
        { sequence := ["develop", "review-qa", "apply-qa-fixes"], successRate := some 1 } 0)
      (mkCreated Store.empty
        { sequence := ["develop", "review-qa", "apply-qa-fixes"], successRate := some 1 } 0)
      { sequence := ["develop", "review-qa", "apply-qa-fixes"], successRate := some (1 / 2) }
      1).autoPrune =
      afterUpdate
        (afterCreate Store.empty
          { sequence := ["develop", "review-qa", "apply-qa-fixes"], successRate := some 1 } 0)
        (mkCreated Store.empty
          { sequence := ["develop", "review-qa", "apply-qa-fixes"], successRate := some 1 } 0)
        { sequence := ["develop", "review-qa", "apply-qa-fixes"], successRate := some (1 / 2) }
        1 := by
    apply autoPrune_small rfl rfl
    simp [afterUpdate, afterCreate, Store.empty]
  rw [hauto2] at h2
  refine ⟨hgen, ?_, ?_⟩
  · rw [h1, h2]
    show ((mkCreated Store.empty
        { sequence := ["develop", "review-qa", "apply-qa-fixes"], successRate := some 1 }
        0).successRate + _) / 2 = 3 / 4
    simp [mkCreated]
    norm_num
  · rw [h1, h2]
    simp [afterUpdate, afterCreate, Store.empty, mkUpdated, mkCreated]
    norm_num

/-- A concrete single-record pattern used to witness the update rule of C2. -/
def c2FixturePattern : Pattern :=
  { id := 0
    sequence := ["a", "b", "c"]
    agents := []
    workflow := none
    occurrences := 1
    successRate := 1
    status := .pending
    firstSeen := 0
    lastSeen := 0
    lastUpdated := 0 }

/-- A concrete one-record store used to witness the update rule of C2. -/
def c2FixtureStore : Store := { patterns := [c2FixturePattern] }

/-- C2 witness: the mean-update rule applied at a concrete store holding one
record with success rate 1, re-saved with success rate 1/2. -/
theorem save_updates_successRate_mean_witness :
    c2FixtureStore.patterns.find?
      (fun e' => decide (e'.sequence =
        ({ sequence := ["a", "b", "c"], successRate := some (1 / 2) } : PatternInput).sequence)) =
      some c2FixturePattern ∧
    (c2FixtureStore.save
      { sequence := ["a", "b", "c"], successRate := some (1 / 2) } 7).1.pattern.successRate =
      (c2FixturePattern.successRate + (1 / 2 : ℚ)) / 2 := by
  have hf : c2FixtureStore.patterns.find?
      (fun e' => decide (e'.sequence =
        ({ sequence := ["a", "b", "c"], successRate := some (1 / 2) } : PatternInput).sequence)) =
      some c2FixturePattern := by
    simp [c2FixtureStore, c2FixturePattern, List.find?]
  exact ⟨hf, (save_updates_successRate_mean.1 _
    { sequence := ["a", "b", "c"], successRate := some (1 / 2) } 7 _ hf).2⟩

end PatternLearning

namespace PatternLearning

/-! ## C5 -/

/-- C5: `Store.load` is total (it cannot raise across the API boundary) and,
for every backing-file state in which the file is missing, empty, or fails
to parse, returns the empty structure with `patterns = []` (and the default
version) instead of propagating the error. -/
theorem load_corrupt_returns_empty (r : ReadResult)
    (h : r = .fileMissing ∨ r = .fileEmpty ∨ r = .parseError) :
    (loadFrom r).patterns = [] ∧ (loadFrom r).version = "1.0" := by
  rcases h with h | h | h <;> subst h <;> exact ⟨rfl, rfl⟩

/-- C5 witness: a parse failure yields the empty pattern list. -/
theorem load_corrupt_returns_empty_witness :
    (ReadResult.parseError = ReadResult.fileMissing ∨
      ReadResult.parseError = ReadResult.fileEmpty ∨
      ReadResult.parseError = ReadResult.parseError) ∧
    (loadFrom .parseError).patterns = [] :=
  ⟨Or.inr (Or.inr rfl),
    (load_corrupt_returns_empty .parseError (Or.inr (Or.inr rfl))).1⟩

/-! ## C7 -/

/-- C7: `captureSession` returns a structured `valid:false` result with a
human-readable reason (and, being a total function, never throws) when:
capture is disabled; the input is null, not an object, or has no commands
array; the session's success flag is false; or the normalized sequence is
shorter than the configured minimum. -/
theorem captureSession_rejections (cfg : CaptureConfig) (n : Nat) :
    (∀ input, cfg.enabled = false →
      (captureSession cfg input n).valid = false ∧
      (captureSession cfg input n).reason = some "Pattern capture is disabled") ∧
    (cfg.enabled = true →
      (captureSession cfg .nullValue n).valid = false ∧
      (captureSession cfg .nullValue n).reason = some "Invalid session data" ∧
      (captureSession cfg .nonObject n).valid = false ∧
      (captureSession cfg .nonObject n).reason = some "Invalid session data" ∧
      ∀ d : SessionData, d.commands = none →
        (captureSession cfg (.obj d) n).valid = false ∧
        (captureSession cfg (.obj d) n).reason = some "Invalid session data") ∧
    (∀ (d : SessionData) (cmds : List String), cfg.enabled = true →
      d.commands = some cmds → d.success = false →
      (captureSession cfg (.obj d) n).valid = false ∧
      (captureSession cfg (.obj d) n).reason = some "Session was not successful") ∧
    (∀ (d : SessionData) (cmds : List String), cfg.enabled = true →
      d.commands = some cmds → d.success = true →
      (cmds.map normalizeCommand).length < cfg.minSequenceLength →
      (captureSession cfg (.obj d) n).valid = false ∧
      (captureSession cfg (.obj d) n).reason = some "Sequence too short") := by
  refine ⟨?_, ?_, ?_, ?_⟩
  · intro input he
    constructor <;> simp [captureSession, he]
  · intro he
    refine ⟨?_, ?_, ?_, ?_, ?_⟩
    · simp [captureSession, he]
    · simp [captureSession, he]
    · simp [captureSession, he]
    · simp [captureSession, he]
    · intro d hc
      constructor <;> simp [captureSession, he, hc]
  · intro d cmds he hc hs
    constructor <;> simp [captureSession, he, hc, hs]
  · intro d cmds he hc hs hl
    rw [List.length_map] at hl
    constructor <;> simp [captureSession, he, hc, hs, hl]

/-- C7 witness: a successful two-command session is rejected as too short by
the default configuration. -/
theorem captureSession_rejections_witness :
    ({} : CaptureConfig).enabled = true ∧
    ({ commands := some ["develop", "review-qa"], success := true } : SessionData).commands =
      some ["develop", "review-qa"] ∧
    ({ commands := some ["develop", "review-qa"], success := true } : SessionData).success = true ∧
    (["develop", "review-qa"].map normalizeCommand).length < ({} : CaptureConfig).minSequenceLength ∧
    (captureSession {} (.obj { commands := some ["develop", "review-qa"], success := true })
      0).reason = some "Sequence too short" :=
  ⟨rfl, rfl, rfl, by decide,
    ((captureSession_rejections {} 0).2.2.2
      { commands := some ["develop", "review-qa"], success := true }
      ["develop", "review-qa"] rfl rfl rfl (by decide)).2⟩

end PatternLearning

namespace PatternLearning

/-! ## C8 -/

/-- The pattern a successful `captureSession` emits for command list `cmds`
of session data `d` under nonce `n`. -/
def emittedPattern (d : SessionData) (cmds : List String) (n : Nat) : Pattern :=
  { id := n
    sequence := cmds.map normalizeCommand
    agents := d.agentSequence
    workflow := classifyWorkflow (cmds.map normalizeCommand)
    occurrences := 1
    successRate := 1
    status := .pending
    firstSeen := 0
    lastSeen := 0
    lastUpdated := 0 }

/-- C8: every successful `captureSession` result carries a pattern with
`occurrences 1`, `successRate 1.0`, `status 'pending'` and a freshly
generated id (the nonce, so ids from distinct nonces are distinct); and for
the concrete input `{commands:['*develop','*review-qa','*apply-qa-fixes'],
success:true}` the leading `*` markers are stripped, giving sequence
`['develop','review-qa','apply-qa-fixes']` and workflow
`'story_development'`. -/
theorem captureSession_success_fields :
    (∀ (cfg : CaptureConfig) (input : SessionInput) (n : Nat),
      (captureSession cfg input n).valid = true →
      ∃ p : Pattern, (captureSession cfg input n).pattern = some p ∧
        p.occurrences = 1 ∧ p.successRate = 1 ∧ p.status = .pending ∧ p.id = n) ∧
    (∀ (cfg₁ cfg₂ : CaptureConfig) (i₁ i₂ : SessionInput) (n₁ n₂ : Nat) (p₁ p₂ : Pattern),
      n₁ ≠ n₂ →
      (captureSession cfg₁ i₁ n₁).pattern = some p₁ →
      (captureSession cfg₂ i₂ n₂).pattern = some p₂ →
      p₁.id ≠ p₂.id) ∧
    ((captureSession {}
        (.obj { commands := some ["*develop", "*review-qa", "*apply-qa-fixes"], success := true })
        5).valid = true ∧
      (captureSession {}
        (.obj { commands := some ["*develop", "*review-qa", "*apply-qa-fixes"], success := true })
        5).pattern.map (fun p => p.sequence) =
          some ["develop", "review-qa", "apply-qa-fixes"] ∧
      (captureSession {}
        (.obj { commands := some ["*develop", "*review-qa", "*apply-qa-fixes"], success := true })
        5).pattern.map (fun p => p.workflow) = some (some "story_development")) := by
  have hemit : ∀ (cfg : CaptureConfig) (d : SessionData) (cmds : List String) (n : Nat),
      cfg.enabled = true → d.commands = some cmds → d.success = true →
      ¬ cmds.length < cfg.minSequenceLength →
      (captureSession cfg (.obj d) n).pattern = some (emittedPattern d cmds n) := by
    intro cfg d cmds n he hc hs hl
    simp [captureSession, he, hc, hs, hl, emittedPattern]
  have hid : ∀ (cfg : CaptureConfig) (input : SessionInput) (n : Nat) (p : Pattern),
      (captureSession cfg input n).pattern = some p →
      p.occurrences = 1 ∧ p.successRate = 1 ∧ p.status = .pending ∧ p.id = n := by
    intro cfg input n p hp
    by_cases he : cfg.enabled = false
    · simp [captureSession, he] at hp
    · cases input with
      | nullValue => simp [captureSession, he] at hp
      | nonObject => simp [captureSession, he] at hp
      | obj d =>
        cases hc : d.commands with
        | none => simp [captureSession, he, hc] at hp
        | some cmds =>
          by_cases hs : d.success = false
          · simp [captureSession, he, hc, hs] at hp
          · by_cases hl : cmds.length < cfg.minSequenceLength
            · simp [captureSession, he, hc, hs, hl] at hp
            · have he' : cfg.enabled = true := by
                cases h : cfg.enabled
                · exact absurd h he
                · rfl
              have hs' : d.success = true := by
                cases h : d.success
                · exact absurd h hs
                · rfl
              have := hemit cfg d cmds n he' hc hs' hl
              rw [this] at hp
              obtain rfl : emittedPattern d cmds n = p := by
                injection hp
              exact ⟨rfl, rfl, rfl, rfl⟩
  refine ⟨?_, ?_, ?_, ?_, ?_⟩
  · intro cfg input n hv
    by_cases he : cfg.enabled = false
    · simp [captureSession, he] at hv
    · cases input with
      | nullValue => simp [captureSession, he] at hv
      | nonObject => simp [captureSession, he] at hv
      | obj d =>
        cases hc : d.commands with
        | none => simp [captureSession, he, hc] at hv
        | some cmds =>
          by_cases hs : d.success = false
          · simp [captureSession, he, hc, hs] at hv
          · by_cases hl : cmds.length < cfg.minSequenceLength
            · simp [captureSession, he, hc, hs, hl] at hv
            · have he' : cfg.enabled = true := by
                cases h : cfg.enabled
                · exact absurd h he
                · rfl
              have hs' : d.success = true := by
                cases h : d.success
                · exact absurd h hs
                · rfl
              have hp := hemit cfg d cmds n he' hc hs' hl
              exact ⟨emittedPattern d cmds n, hp, rfl, rfl, rfl, rfl⟩
  · intro cfg₁ cfg₂ i₁ i₂ n₁ n₂ p₁ p₂ hn h₁ h₂
    have e₁ := (hid cfg₁ i₁ n₁ p₁ h₁).2.2.2
    have e₂ := (hid cfg₂ i₂ n₂ p₂ h₂).2.2.2
    rw [e₁, e₂]
    exact hn
  · decide
  · decide
  · decide

/-- C8 witness: the field guarantees applied at the concrete normalized
session. -/
theorem captureSession_success_fields_witness :
    (captureSession {}
      (.obj { commands := some ["*develop", "*review-qa", "*apply-qa-fixes"], success := true })
      5).valid = true ∧
    ∃ p : Pattern,
      (captureSession {}
        (.obj { commands := some ["*develop", "*review-qa", "*apply-qa-fixes"], success := true })
        5).pattern = some p ∧
      p.occurrences = 1 ∧ p.successRate = 1 ∧ p.status = .pending ∧ p.id = 5 :=
  ⟨by decide,
    captureSession_success_fields.1 {}
      (.obj { commands := some ["*develop", "*review-qa", "*apply-qa-fixes"], success := true })
      5 (by decide)⟩

end PatternLearning

namespace PatternLearning

/-! ## C10 -/

/-- Overwriting an existing key in the buffer map makes lookup return the
new buffer. -/
lemma find?_map_overwrite (l : List (String × SessionBuffer)) (sid : String) (buf : SessionBuffer)
    (h : l.any (fun kv => decide (kv.1 = sid)) = true) :
    (l.map (fun kv => if kv.1 = sid then (sid, buf) else kv)).find?
      (fun kv => decide (kv.1 = sid)) = some (sid, buf) := by
  induction l with
  | nil => simp at h
  | cons kv l ih =>
    by_cases hk : kv.1 = sid
    · simp [List.find?, hk]
    · rw [List.any_cons] at h
      simp only [hk, decide_False, Bool.false_or] at h
      simp only [List.map_cons, List.find?, hk, if_false, decide_False]
      exact ih h

/-- Appending a fresh key to the buffer map makes lookup return the new
buffer when no existing key matches. -/
lemma find?_append_singleton (l : List (String × SessionBuffer)) (sid : String)
    (buf : SessionBuffer)
    (h : l.any (fun kv => decide (kv.1 = sid)) = false) :
    (l ++ [(sid, buf)]).find? (fun kv => decide (kv.1 = sid)) = some (sid, buf) := by
  induction l with
  | nil => simp [List.find?]
  | cons kv l ih =>
    rw [List.any_cons] at h
    have hk : (decide (kv.1 = sid)) = false := by
      cases hd : decide (kv.1 = sid)
      · rfl
      · rw [hd] at h; simp at h
    have hrest : l.any (fun kv => decide (kv.1 = sid)) = false := by
      rw [hk] at h; simpa using h
    simp only [List.cons_append, List.find?, hk]
    exact ih hrest

/-- Looking up the session id just written returns the written buffer. -/
lemma getBuffer_setBuffer (st : CaptureState) (sid : String) (buf : SessionBuffer) :
    (st.setBuffer sid buf).getBuffer sid = buf := by
  cases hb : st.buffers.any (fun kv => decide (kv.1 = sid)) with
  | true =>
    simp only [CaptureState.setBuffer, CaptureState.getBuffer, hb, if_true]
    rw [find?_map_overwrite st.buffers sid buf hb]
  | false =>
    simp only [CaptureState.setBuffer, CaptureState.getBuffer, hb, Bool.false_eq_true, if_false]
    rw [find?_append_singleton st.buffers sid buf hb]

/-- The stripped agent identifier is always in the agent set after
`addAgent`. -/
lemma mem_addAgent (buf : SessionBuffer) (a : String) :
    stripAgentMarker a ∈ (addAgent buf (some a)).agents := by
  simp only [addAgent]
  by_cases h : stripAgentMarker a ∈ buf.agents
  · rw [if_pos h]; exact h
  · rw [if_neg h]; simp

/-- C10: when `context.agentId` begins with `@`, `onTaskComplete` records
the identifier in the session buffer's agent set with the leading `@`
stripped; concretely, agent id `@dev` is stored as `dev`. -/
theorem onTaskComplete_strips_agent_marker :
    (∀ (cfg : CaptureConfig) (st : CaptureState) (cmd sid a : String) (rest : List Char)
        (n : Nat),
      cfg.enabled = true →
      a.data = '@' :: rest →
      normalizeCommand cmd ∉ cfg.endingCommands →
      stripAgentMarker a = String.mk rest ∧
      String.mk rest ∈
        ((onTaskComplete cfg cmd { sessionId := some sid, agentId := some a } n
            st).2.getBuffer sid).agents) ∧
    ((onTaskComplete {} "develop" { sessionId := some "test", agentId := some "@dev" } 0
        ⟨[]⟩).2.getBuffer "test").agents = ["dev"] := by
  constructor
  · intro cfg st cmd sid a rest n he hdata hend
    have hstrip : stripAgentMarker a = String.mk rest := by
      cases a with
      | mk d =>
        simp only [String.data] at hdata
        subst hdata
        rfl
    refine ⟨hstrip, ?_⟩
    simp only [onTaskComplete, he, Bool.true_eq_false, if_false, Option.getD_some, if_neg hend]
    rw [getBuffer_setBuffer, ← hstrip]
    exact mem_addAgent _ _
  · decide

/-- C10 witness: the stripping rule applied at agent id `@dev` with command
`develop` on an empty capture state. -/
theorem onTaskComplete_strips_agent_marker_witness :
    ({} : CaptureConfig).enabled = true ∧
    "@dev".data = '@' :: ['d', 'e', 'v'] ∧
    normalizeCommand "develop" ∉ ({} : CaptureConfig).endingCommands ∧
    String.mk ['d', 'e', 'v'] ∈
      ((onTaskComplete {} "develop" { sessionId := some "test", agentId := some "@dev" } 0
          ⟨[]⟩).2.getBuffer "test").agents :=
  ⟨rfl, by decide, by decide,
    (onTaskComplete_strips_agent_marker.1 {} ⟨[]⟩ "develop" "test" "@dev" ['d', 'e', 'v'] 0
      rfl (by decide) (by decide)).2⟩

end PatternLearning

namespace PatternLearning

/-! ## C3 -/

/-- `bestStep` on an empty accumulator takes the pattern and its score. -/
lemma bestStep_none (cand : List String) (e : Pattern) :
    bestStep cand none e = some (e, combinedSimilarity cand e.sequence) := rfl

/-- `bestStep` on a non-empty accumulator keeps the strictly higher score. -/
lemma bestStep_some (cand : List String) (pr : Pattern × ℚ) (e : Pattern) :
    bestStep cand (some pr) e =
      if pr.2 < combinedSimilarity cand e.sequence
      then some (e, combinedSimilarity cand e.sequence)
      else some pr := rfl

/-- A best-match scan result comes from the accumulator or scores one of the
scanned patterns. -/
lemma bestMatch_go_mem (cand : List String) (l : List Pattern) :
    ∀ (acc : Option (Pattern × ℚ)) (e : Pattern) (s : ℚ),
      l.foldl (bestStep cand) acc = some (e, s) →
      acc = some (e, s) ∨ (e ∈ l ∧ s = combinedSimilarity cand e.sequence) := by
  induction l with
  | nil =>
    intro acc e s h
    exact Or.inl h
  | cons x l ih =>
    intro acc e s h
    rw [List.foldl_cons] at h
    rcases ih (bestStep cand acc x) e s h with hacc | ⟨hm, hs⟩
    · cases acc with
      | none =>
        rw [bestStep_none] at hacc
        injection hacc with h'
        cases h'
        exact Or.inr ⟨List.mem_cons_self x l, rfl⟩
      | some pr =>
        rw [bestStep_some] at hacc
        split_ifs at hacc with hlt
        · injection hacc with h'
          cases h'
          exact Or.inr ⟨List.mem_cons_self x l, rfl⟩
        · exact Or.inl hacc
    · exact Or.inr ⟨List.mem_cons_of_mem x hm, hs⟩

/-- A best-match scan result dominates the accumulator and every scanned
pattern's score. -/
lemma bestMatch_go_le (cand : List String) (l : List Pattern) :
    ∀ (acc : Option (Pattern × ℚ)) (e : Pattern) (s : ℚ),
      l.foldl (bestStep cand) acc = some (e, s) →
      (∀ pr : Pattern × ℚ, acc = some pr → pr.2 ≤ s) ∧
      ∀ x ∈ l, combinedSimilarity cand x.sequence ≤ s := by
  induction l with
  | nil =>
    intro acc e s h
    rw [List.foldl_nil] at h
    constructor
    · intro pr hpr
      rw [hpr] at h
      injection h with h'
      rw [h']
    · intro x hx
      simp at hx
  | cons x l ih =>
    intro acc e s h
    rw [List.foldl_cons] at h
    obtain ⟨hacc_le, hl_le⟩ := ih (bestStep cand acc x) e s h
    constructor
    · intro pr hpr
      by_cases hlt : pr.2 < combinedSimilarity cand x.sequence
      · have hx_le : combinedSimilarity cand x.sequence ≤ s := by
          apply hacc_le (x, combinedSimilarity cand x.sequence)
          rw [hpr, bestStep_some, if_pos hlt]
        exact le_of_lt (lt_of_lt_of_le hlt hx_le)
      · apply hacc_le pr
        rw [hpr, bestStep_some, if_neg hlt]
    · intro y hy
      rcases List.mem_cons.mp hy with rfl | hy'
      · cases acc with
        | none =>
          apply hacc_le (y, combinedSimilarity cand y.sequence)
          rw [bestStep_none]
        | some pr =>
          by_cases hlt : pr.2 < combinedSimilarity cand y.sequence
          · apply hacc_le (y, combinedSimilarity cand y.sequence)
            rw [bestStep_some, if_pos hlt]
          · have hpr_le : pr.2 ≤ s := by
              apply hacc_le pr
              rw [bestStep_some, if_neg hlt]
            exact le_trans (not_lt.mp hlt) hpr_le
      · exact hl_le y hy'

/-- `bestMatch` returns a member of the list, its own score, and an upper
bound on every score. -/
lemma bestMatch_spec {cand : List String} {existing : List Pattern} {e : Pattern} {s : ℚ}
    (h : bestMatch cand existing = some (e, s)) :
    e ∈ existing ∧ s = combinedSimilarity cand e.sequence ∧
      ∀ x ∈ existing, combinedSimilarity cand x.sequence ≤ s := by
  unfold bestMatch at h
  rcases bestMatch_go_mem cand existing none e s h with hacc | ⟨hm, hs⟩
  · cases hacc
  · obtain ⟨-, hle⟩ := bestMatch_go_le cand existing none e s h
    exact ⟨hm, hs, hle⟩

/-- Unfolding `isDuplicate` at an exact sequence match. -/
lemma isDuplicate_eq_exact {th : ℚ} {cand : List String} {existing : List Pattern} {e : Pattern}
    (h : existing.find? (fun e' => decide (e'.sequence = cand)) = some e) :
    isDuplicate th cand existing =
      { isDuplicate := true, duplicateOf := some e.id, exact := true } := by
  unfold isDuplicate
  rw [h]

/-- Unfolding `isDuplicate` at a near-match decided by the best score. -/
lemma isDuplicate_eq_best {th : ℚ} {cand : List String} {existing : List Pattern} {e : Pattern}
    {s : ℚ}
    (hf : existing.find? (fun e' => decide (e'.sequence = cand)) = none)
    (hb : bestMatch cand existing = some (e, s)) :
    isDuplicate th cand existing =
      if th ≤ s then { isDuplicate := true, duplicateOf := some e.id, similarity := some s }
      else { isDuplicate := false } := by
  unfold isDuplicate
  rw [hf, hb]

/-- The existing pattern of the concrete C3 scenario:
`['develop','review-qa','apply-qa-fixes']` under id 1. -/
def c3Existing : Pattern :=
  { id := 1
    sequence := ["develop", "review-qa", "apply-qa-fixes"]
    agents := []
    workflow := none
    occurrences := 1
    successRate := 1
    status := .pending
    firstSeen := 0
    lastSeen := 0
    lastUpdated := 0 }

/-- C3: `isDuplicate` reports `exact:true` with the matching pattern's id
and no similarity whenever an existing sequence is element-wise identical to
the candidate; otherwise the best combined score
`0.4 * jaccard + 0.6 * orderMatchRatio` over the existing patterns decides,
against the threshold; the empty list never yields a duplicate; and two
length-3 sequences agreeing at exactly their first two positions (the
concrete `run-tests` vs `apply-qa-fixes` case) score exactly
`3/5 = 0.4*0.5 + 0.6*(2/3)` and are not duplicates at the default 0.85
threshold. -/
theorem isDuplicate_spec :
    (∀ (th : ℚ) (cand : List String), isDuplicate th cand [] = { isDuplicate := false }) ∧
    (∀ (th : ℚ) (cand : List String) (existing : List Pattern) (e : Pattern),
      existing.find? (fun e' => decide (e'.sequence = cand)) = some e →
      isDuplicate th cand existing =
        { isDuplicate := true, duplicateOf := some e.id, exact := true, similarity := none }) ∧
    (∀ (th : ℚ) (cand : List String) (existing : List Pattern) (e : Pattern) (s : ℚ),
      existing.find? (fun e' => decide (e'.sequence = cand)) = none →
      bestMatch cand existing = some (e, s) →
      e ∈ existing ∧ s = combinedSimilarity cand e.sequence ∧
      (∀ x ∈ existing, combinedSimilarity cand x.sequence ≤ s) ∧
      (th ≤ s →
        isDuplicate th cand existing =
          { isDuplicate := true, duplicateOf := some e.id, exact := false,
            similarity := some s }) ∧
      (s < th → isDuplicate th cand existing = { isDuplicate := false })) ∧
    (combinedSimilarity ["develop", "review-qa", "run-tests"]
        ["develop", "review-qa", "apply-qa-fixes"] = 3 / 5 ∧
      isDuplicate defaultDuplicateThreshold ["develop", "review-qa", "run-tests"]
        [c3Existing] = { isDuplicate := false }) := by
  have hcs : combinedSimilarity ["develop", "review-qa", "run-tests"]
      ["develop", "review-qa", "apply-qa-fixes"] = 3 / 5 := by
    have hu : ((["develop", "review-qa", "run-tests"] : List String).toFinset ∪
        (["develop", "review-qa", "apply-qa-fixes"] : List String).toFinset).card = 4 := by
      decide
    have hi : ((["develop", "review-qa", "run-tests"] : List String).toFinset ∩
        (["develop", "review-qa", "apply-qa-fixes"] : List String).toFinset).card = 2 := by
      decide
    have hm : orderMatches ["develop", "review-qa", "run-tests"]
        ["develop", "review-qa", "apply-qa-fixes"] = 2 := by decide
    have hj : jaccard ["develop", "review-qa", "run-tests"]
        ["develop", "review-qa", "apply-qa-fixes"] = 1 / 2 := by
      simp only [jaccard, hu, hi]
      norm_num
    have hr : orderMatchRatio ["develop", "review-qa", "run-tests"]
        ["develop", "review-qa", "apply-qa-fixes"] = 2 / 3 := by
      simp only [orderMatchRatio, hm]
      norm_num
    rw [combinedSimilarity, hj, hr]
    norm_num
  refine ⟨fun th cand => rfl, ?_, ?_, hcs, ?_⟩
  · intro th cand existing e h
    exact isDuplicate_eq_exact h
  · intro th cand existing e s hf hb
    obtain ⟨hm, hs, hle⟩ := bestMatch_spec hb
    refine ⟨hm, hs, hle, ?_, ?_⟩
    · intro hth
      rw [isDuplicate_eq_best hf hb, if_pos hth]
    · intro hth
      rw [isDuplicate_eq_best hf hb, if_neg (not_le.mpr hth)]
  · have hf : ([c3Existing] : List Pattern).find?
        (fun e' => decide (e'.sequence = ["develop", "review-qa", "run-tests"])) = none := by
      simp [List.find?, c3Existing]
    have hb : bestMatch ["develop", "review-qa", "run-tests"] [c3Existing] =
        some (c3Existing,
          combinedSimilarity ["develop", "review-qa", "run-tests"] c3Existing.sequence) := rfl
    have hseq : combinedSimilarity ["develop", "review-qa", "run-tests"] c3Existing.sequence =
        3 / 5 := hcs
    rw [isDuplicate_eq_best hf hb, hseq, if_neg]
    rw [defaultDuplicateThreshold]
    norm_num

/-- C3 witness: the exact-duplicate branch at a concrete one-pattern list. -/
theorem isDuplicate_spec_witness :
    ([c3Existing] : List Pattern).find?
      (fun e' => decide (e'.sequence = ["develop", "review-qa", "apply-qa-fixes"])) =
      some c3Existing ∧
    isDuplicate defaultDuplicateThreshold ["develop", "review-qa", "apply-qa-fixes"]
      [c3Existing] =
      { isDuplicate := true, duplicateOf := some c3Existing.id, exact := true,
        similarity := none } := by
  have hf : ([c3Existing] : List Pattern).find?
      (fun e' => decide (e'.sequence = ["develop", "review-qa", "apply-qa-fixes"])) =
      some c3Existing := by
    simp [List.find?, c3Existing]
  exact ⟨hf, isDuplicate_spec.2.1 defaultDuplicateThreshold
    ["develop", "review-qa", "apply-qa-fixes"] [c3Existing] c3Existing hf⟩

end PatternLearning

namespace PatternLearning

/-! ## C9 -/

/-- A Jaccard index never exceeds 1. -/
lemma jaccard_le_one (a b : List String) : jaccard a b ≤ 1 := by
  simp only [jaccard]
  split_ifs with h
  · norm_num
  · have hle : (a.toFinset ∩ b.toFinset).card ≤ (a.toFinset ∪ b.toFinset).card :=
      Finset.card_le_card Finset.inter_subset_union
    have hpos : (0 : ℚ) < ((a.toFinset ∪ b.toFinset).card : ℚ) := by
      exact_mod_cast Nat.pos_of_ne_zero h
    rw [div_le_one hpos]
    exact_mod_cast hle

/-- An order-match ratio never exceeds 1. -/
lemma orderMatchRatio_le_one (a b : List String) : orderMatchRatio a b ≤ 1 := by
  simp only [orderMatchRatio]
  split_ifs with h
  · norm_num
  · have hle : orderMatches a b ≤ min a.length b.length := by
      unfold orderMatches
      calc ((a.zip b).filter (fun p => decide (p.1 = p.2))).length
          ≤ (a.zip b).length := List.length_filter_le _ _
        _ = min a.length b.length := List.length_zip a b
    have hpos : (0 : ℚ) < ((min a.length b.length : Nat) : ℚ) := by
      exact_mod_cast Nat.pos_of_ne_zero h
    rw [div_le_one hpos]
    exact_mod_cast hle

/-- A combined similarity score never exceeds 1. -/
lemma combinedSimilarity_le_one (a b : List String) : combinedSimilarity a b ≤ 1 := by
  have hj := jaccard_le_one a b
  have hr := orderMatchRatio_le_one a b
  unfold combinedSimilarity
  linarith

/-- C9: `findSimilar` returns `[]` for a null or empty query; for every
non-empty query the result is sorted by similarity descending, every item's
similarity lies in the half-open interval (0,1], the score is the
Validator's combined Jaccard/order-match formula, and every item wraps a
stored pattern. -/
theorem findSimilar_spec :
    (∀ st : Store, st.findSimilar none = [] ∧ st.findSimilar (some []) = []) ∧
    (∀ (st : Store) (seq : List String), seq ≠ [] →
      List.Pairwise (fun a b : SimilarResult => b.similarity ≤ a.similarity)
        (st.findSimilar (some seq)) ∧
      ∀ r ∈ st.findSimilar (some seq),
        0 < r.similarity ∧ r.similarity ≤ 1 ∧
        r.similarity = combinedSimilarity seq r.pattern.sequence ∧
        r.pattern ∈ st.patterns) := by
  constructor
  · intro st
    exact ⟨rfl, rfl⟩
  · intro st seq hne
    cases seq with
    | nil => exact absurd rfl hne
    | cons c cs =>
      constructor
      · exact List.sorted_insertionSort simDesc _
      · intro r hr
        have hr' : r ∈ (st.patterns.map
            (fun p => SimilarResult.mk p (combinedSimilarity (c :: cs) p.sequence))).filter
            (fun r => decide (0 < r.similarity)) :=
          ((List.perm_insertionSort simDesc _).mem_iff).mp hr
        rw [List.mem_filter] at hr'
        obtain ⟨hmem, hpos⟩ := hr'
        rw [List.mem_map] at hmem
        obtain ⟨p, hp, rfl⟩ := hmem
        exact ⟨of_decide_eq_true hpos, combinedSimilarity_le_one _ _, rfl, hp⟩

/-- C9 witness: the sortedness and score facts applied at the default empty
store and the one-command query. -/
theorem findSimilar_spec_witness :
    (["develop"] ≠ ([] : List String)) ∧
    List.Pairwise (fun a b : SimilarResult => b.similarity ≤ a.similarity)
      (Store.empty.findSimilar (some ["develop"])) ∧
    ∀ r ∈ Store.empty.findSimilar (some ["develop"]),
      0 < r.similarity ∧ r.similarity ≤ 1 ∧
      r.similarity = combinedSimilarity ["develop"] r.pattern.sequence ∧
      r.pattern ∈ Store.empty.patterns :=
  ⟨by decide,
    (findSimilar_spec.2 Store.empty ["develop"] (by decide)).1,
    (findSimilar_spec.2 Store.empty ["develop"] (by decide)).2⟩

end PatternLearning

namespace PatternLearning

/-! ## C4 -/

/-- Membership in a status class is membership in the store with that
status. -/
lemma mem_statusClass {strat : PruneStrategy} {ps : List Pattern} {s : PStatus} {x : Pattern} :
    x ∈ statusClass strat ps s ↔ x ∈ ps ∧ x.status = s := by
  cases strat with
  | standard =>
    simp [statusClass, List.mem_filter]
  | lowestSuccessRate =>
    simp only [statusClass, sortBySuccessRateAsc]
    rw [(List.perm_insertionSort _ _).mem_iff]
    simp [List.mem_filter]

/-- A status class is a permutation of the corresponding filter. -/
lemma statusClass_perm_filter (strat : PruneStrategy) (ps : List Pattern) (s : PStatus) :
    List.Perm (statusClass strat ps s) (ps.filter (fun p => decide (p.status = s))) := by
  cases strat with
  | standard => exact List.Perm.refl _
  | lowestSuccessRate => exact List.perm_insertionSort _ _

/-- Moving the head of the second block of a four-block append to the
front. -/
lemma perm_insert_second {α : Type} (a c d : List α) (y : α) :
    List.Perm (a ++ (y :: (c ++ d))) (y :: (a ++ (c ++ d))) :=
  List.perm_middle

/-- Moving the head of the third block of a four-block append to the
front. -/
lemma perm_insert_third {α : Type} (a b c d : List α) (y : α) :
    List.Perm (a ++ (b ++ (y :: (c ++ d)))) (y :: (a ++ (b ++ (c ++ d)))) := by
  have h1 : a ++ (b ++ (y :: (c ++ d))) = (a ++ b) ++ (y :: (c ++ d)) :=
    (List.append_assoc a b _).symm
  rw [h1]
  refine List.Perm.trans List.perm_middle ?_
  rw [List.append_assoc]

/-- Moving the head of the fourth block of a four-block append to the
front. -/
lemma perm_insert_fourth {α : Type} (a b c d : List α) (y : α) :
    List.Perm (a ++ (b ++ (c ++ (y :: d)))) (y :: (a ++ (b ++ (c ++ d)))) := by
  have h1 : a ++ (b ++ (c ++ (y :: d))) = ((a ++ b) ++ c) ++ (y :: d) := by
    simp [List.append_assoc]
  rw [h1]
  refine List.Perm.trans List.perm_middle ?_
  simp [List.append_assoc]

/-- The four status filters partition the pattern list (as a permutation). -/
lemma filter_status_partition (ps : List Pattern) :
    List.Perm
      (ps.filter (fun p => decide (p.status = .deprecated)) ++
        (ps.filter (fun p => decide (p.status = .pending)) ++
          (ps.filter (fun p => decide (p.status = .active)) ++
            ps.filter (fun p => decide (p.status = .promoted)))))
      ps := by
  induction ps with
  | nil => exact List.Perm.nil
  | cons x ps ih =>
    cases hs : x.status with
    | deprecated =>
      simp [List.filter_cons, hs]
      exact ih
    | pending =>
      simp [List.filter_cons, hs]
      exact List.Perm.trans (perm_insert_second _ _ _ x) (ih.cons x)
    | active =>
      simp [List.filter_cons, hs]
      exact List.Perm.trans (perm_insert_third _ _ _ _ x) (ih.cons x)
    | promoted =>
      simp [List.filter_cons, hs]
      exact List.Perm.trans (perm_insert_fourth _ _ _ _ x) (ih.cons x)

/-- The prune removal ordering is a permutation of the stored patterns. -/
lemma pruneOrder_perm (strat : PruneStrategy) (ps : List Pattern) :
    List.Perm (pruneOrder strat ps) ps := by
  unfold pruneOrder
  refine List.Perm.trans ?_ (filter_status_partition ps)
  exact (statusClass_perm_filter strat ps .deprecated).append
    ((statusClass_perm_filter strat ps .pending).append
      ((statusClass_perm_filter strat ps .active).append
        (statusClass_perm_filter strat ps .promoted)))

/-- The removal ordering preserves the record count. -/
lemma length_pruneOrder (strat : PruneStrategy) (ps : List Pattern) :
    (pruneOrder strat ps).length = ps.length :=
  (pruneOrder_perm strat ps).length_eq

/-- The pruned store's records are the tail of the removal ordering. -/
lemma prune_patterns_eq (st : Store) (keep : Nat) (strat : PruneStrategy) :
    (st.prune keep strat).2.patterns =
      (pruneOrder strat st.patterns).drop (st.patterns.length - keep) := rfl

/-- `prune` keeps `min keepCount total` records. -/
lemma length_prune_patterns (st : Store) (keep : Nat) (strat : PruneStrategy) :
    (st.prune keep strat).2.patterns.length = min keep st.patterns.length := by
  rw [prune_patterns_eq, List.length_drop, length_pruneOrder]
  omega

/-- If an element of the tail of `A ++ B` is not from `B`, all of `B`
survives into the tail. -/
lemma mem_drop_append_of_mem_drop {α : Type} {A B : List α} {n : Nat} {x : α}
    (hx : x ∈ (A ++ B).drop n) (hxB : x ∉ B) : ∀ y ∈ B, y ∈ (A ++ B).drop n := by
  rw [List.drop_append_eq_append_drop] at hx ⊢
  intro y hy
  rcases List.mem_append.mp hx with h | h
  · have hlt : n < A.length := by
      by_contra hge
      push_neg at hge
      rw [List.drop_eq_nil_of_le hge] at h
      exact absurd h (List.not_mem_nil x)
    have h0 : n - A.length = 0 := Nat.sub_eq_zero_of_le (le_of_lt hlt)
    rw [h0, List.drop_zero]
    exact List.mem_append_right _ hy
  · exact absurd (List.mem_of_mem_drop h) hxB

/-- If a kept record is not drawn from the suffix `B` of the removal
ordering, all of `B` is kept. -/
lemma kept_protects {st : Store} {keep : Nat} {strat : PruneStrategy} {A B : List Pattern}
    (hAB : pruneOrder strat st.patterns = A ++ B)
    {q : Pattern} (hq : q ∈ (st.prune keep strat).2.patterns) (hqB : q ∉ B) :
    ∀ y ∈ B, y ∈ (st.prune keep strat).2.patterns := by
  rw [prune_patterns_eq, hAB] at hq ⊢
  exact mem_drop_append_of_mem_drop hq hqB

end PatternLearning

namespace PatternLearning

/-- A fixture pattern with a given id and status (C4's concrete scenario). -/
def c4Pat (i : Nat) (s : PStatus) : Pattern :=
  { id := i
    sequence := ["x", "y", "z"]
    agents := []
    workflow := none
    occurrences := 1
    successRate := 1
    status := s
    firstSeen := 0
    lastSeen := 0
    lastUpdated := 0 }

/-- A store holding one promoted, one active, one deprecated and five
pending records (C4's concrete scenario). -/
def c4Store : Store :=
  { patterns := [c4Pat 1 .promoted, c4Pat 2 .active, c4Pat 3 .deprecated,
      c4Pat 4 .pending, c4Pat 5 .pending, c4Pat 6 .pending, c4Pat 7 .pending,
      c4Pat 8 .pending] }

/-- C4: `Store.prune` removes records down to `keepCount` (keeping
`min keepCount total` records and reporting `total - keepCount` pruned),
taking removal candidates in priority order: if any deprecated record is
kept then nothing non-deprecated was removed, if any pending record is kept
then every active and promoted record is kept, and a promoted record is
never removed while any lower-priority record remains; concretely, pruning
one promoted + one active + one deprecated + five pending records down to 3
keeps a pending, the active and the promoted record and removes the
deprecated one. -/
theorem prune_priority_spec :
    (∀ (st : Store) (keep : Nat) (strat : PruneStrategy),
      (st.prune keep strat).1.pruned = st.patterns.length - keep ∧
      (st.prune keep strat).2.patterns.length = min keep st.patterns.length) ∧
    (∀ (st : Store) (keep : Nat) (strat : PruneStrategy),
      (∀ q ∈ (st.prune keep strat).2.patterns, q.status = .deprecated →
        ∀ p ∈ st.patterns, p.status ≠ .deprecated →
          p ∈ (st.prune keep strat).2.patterns) ∧
      (∀ q ∈ (st.prune keep strat).2.patterns, q.status = .pending →
        ∀ p ∈ st.patterns, p.status = .active ∨ p.status = .promoted →
          p ∈ (st.prune keep strat).2.patterns) ∧
      (∀ q ∈ (st.prune keep strat).2.patterns, q.status ≠ .promoted →
        ∀ p ∈ st.patterns, p.status = .promoted →
          p ∈ (st.prune keep strat).2.patterns)) ∧
    ((c4Store.prune 3 .standard).2.patterns.map (fun p => p.id) = [8, 2, 1] ∧
      (c4Store.prune 3 .standard).2.patterns.map (fun p => p.status) =
        [.pending, .active, .promoted] ∧
      (c4Store.prune 3 .standard).1.pruned = 5) := by
  refine ⟨?_, ?_, ?_, ?_, ?_⟩
  · intro st keep strat
    exact ⟨rfl, length_prune_patterns st keep strat⟩
  · intro st keep strat
    refine ⟨?_, ?_, ?_⟩
    · -- a kept deprecated record means nothing non-deprecated was removed
      intro q hq hqs p hp hps
      have hAB : pruneOrder strat st.patterns =
          statusClass strat st.patterns .deprecated ++
            (statusClass strat st.patterns .pending ++
              (statusClass strat st.patterns .active ++
                statusClass strat st.patterns .promoted)) := rfl
      have hqB : q ∉ statusClass strat st.patterns .pending ++
          (statusClass strat st.patterns .active ++
            statusClass strat st.patterns .promoted) := by
        intro hmem
        rcases List.mem_append.mp hmem with h | h
        · have hstat := (mem_statusClass.mp h).2
          rw [hqs] at hstat
          exact absurd hstat (by decide)
        · rcases List.mem_append.mp h with h' | h'
          · have hstat := (mem_statusClass.mp h').2
            rw [hqs] at hstat
            exact absurd hstat (by decide)
          · have hstat := (mem_statusClass.mp h').2
            rw [hqs] at hstat
            exact absurd hstat (by decide)
      apply kept_protects hAB hq hqB
      cases hps' : p.status with
      | deprecated => exact absurd hps' hps
      | pending => exact List.mem_append_left _ (mem_statusClass.mpr ⟨hp, hps'⟩)
      | active =>
        exact List.mem_append_right _
          (List.mem_append_left _ (mem_statusClass.mpr ⟨hp, hps'⟩))
      | promoted =>
        exact List.mem_append_right _
          (List.mem_append_right _ (mem_statusClass.mpr ⟨hp, hps'⟩))
    · -- a kept pending record means every active/promoted record is kept
      intro q hq hqs p hp hps
      have hAB : pruneOrder strat st.patterns =
          (statusClass strat st.patterns .deprecated ++
            statusClass strat st.patterns .pending) ++
            (statusClass strat st.patterns .active ++
              statusClass strat st.patterns .promoted) := by
        unfold pruneOrder
        rw [← List.append_assoc]
      have hqB : q ∉ statusClass strat st.patterns .active ++
          statusClass strat st.patterns .promoted := by
        intro hmem
        rcases List.mem_append.mp hmem with h | h
        · have hstat := (mem_statusClass.mp h).2
          rw [hqs] at hstat
          exact absurd hstat (by decide)
        · have hstat := (mem_statusClass.mp h).2
          rw [hqs] at hstat
          exact absurd hstat (by decide)
      apply kept_protects hAB hq hqB
      rcases hps with h | h
      · exact List.mem_append_left _ (mem_statusClass.mpr ⟨hp, h⟩)
      · exact List.mem_append_right _ (mem_statusClass.mpr ⟨hp, h⟩)
    · -- a kept non-promoted record means every promoted record is kept
      intro q hq hqs p hp hps
      have hAB : pruneOrder strat st.patterns =
          (statusClass strat st.patterns .deprecated ++
            (statusClass strat st.patterns .pending ++
              statusClass strat st.patterns .active)) ++
            statusClass strat st.patterns .promoted := by
        unfold pruneOrder
        simp [List.append_assoc]
      have hqB : q ∉ statusClass strat st.patterns .promoted := by
        intro hmem
        exact absurd (mem_statusClass.mp hmem).2 hqs
      apply kept_protects hAB hq hqB
      exact mem_statusClass.mpr ⟨hp, hps⟩
  · decide
  · decide
  · decide

/-- C4 witness: the promoted-protection rule applied at the concrete
8-record store pruned down to 3. -/
theorem prune_priority_spec_witness :
    c4Pat 8 .pending ∈ (c4Store.prune 3 .standard).2.patterns ∧
    (c4Pat 8 .pending).status ≠ .promoted ∧
    c4Pat 1 .promoted ∈ c4Store.patterns ∧
    (c4Pat 1 .promoted).status = .promoted ∧
    c4Pat 1 .promoted ∈ (c4Store.prune 3 .standard).2.patterns := by
  have hkept : (c4Store.prune 3 .standard).2.patterns =
      [c4Pat 8 .pending, c4Pat 2 .active, c4Pat 1 .promoted] := rfl
  have h8 : c4Pat 8 .pending ∈ (c4Store.prune 3 .standard).2.patterns := by
    rw [hkept]
    exact List.mem_cons_self _ _
  have h1 : c4Pat 1 .promoted ∈ c4Store.patterns := List.mem_cons_self _ _
  exact ⟨h8, by decide, h1, rfl,
    (prune_priority_spec.2.1 c4Store 3 .standard).2.2 (c4Pat 8 .pending) h8 (by decide)
      (c4Pat 1 .promoted) h1 rfl⟩

end PatternLearning

namespace PatternLearning

/-! ## C6 -/

/-- Auto-pruning does not change the configured maximum. -/
lemma autoPrune_maxPatterns (st : Store) : st.autoPrune.maxPatterns = st.maxPatterns := by
  unfold Store.autoPrune
  split_ifs <;> rfl

/-- Auto-pruning does not change the configured threshold. -/
lemma autoPrune_pruneThreshold (st : Store) :
    st.autoPrune.pruneThreshold = st.pruneThreshold := by
  unfold Store.autoPrune
  split_ifs <;> rfl

/-- A save does not change the configured maximum. -/
lemma save_maxPatterns (st : Store) (p : PatternInput) (now : Nat) :
    (st.save p now).2.maxPatterns = st.maxPatterns := by
  cases hf : st.patterns.find? (fun e => decide (e.sequence = p.sequence)) with
  | none => rw [save_eq_created st p now hf]; exact autoPrune_maxPatterns _
  | some e => rw [save_eq_updated st p now hf]; exact autoPrune_maxPatterns _

/-- A save does not change the configured threshold. -/
lemma save_pruneThreshold (st : Store) (p : PatternInput) (now : Nat) :
    (st.save p now).2.pruneThreshold = st.pruneThreshold := by
  cases hf : st.patterns.find? (fun e => decide (e.sequence = p.sequence)) with
  | none => rw [save_eq_created st p now hf]; exact autoPrune_pruneThreshold _
  | some e => rw [save_eq_updated st p now hf]; exact autoPrune_pruneThreshold _

/-- After the auto-prune check, a store with a positive prune trigger level
holds strictly fewer records than that level. -/
lemma autoPrune_length_lt (st : Store) (h : 0 < st.pruneLimit) :
    ((st.autoPrune.patterns.length : ℚ)) < st.pruneLimit := by
  unfold Store.autoPrune
  split_ifs with hc
  · rw [length_prune_patterns]
    have hceil_pos : 0 < ⌈st.pruneLimit⌉₊ := Nat.ceil_pos.mpr h
    have hlen_ge : ⌈st.pruneLimit⌉₊ ≤ st.patterns.length := Nat.ceil_le.mpr hc
    have hmin : min (⌈st.pruneLimit⌉₊ - 1) st.patterns.length = ⌈st.pruneLimit⌉₊ - 1 :=
      min_eq_left (by omega)
    rw [hmin, Nat.cast_sub hceil_pos]
    have hlt := Nat.ceil_lt_add_one (le_of_lt h)
    push_cast
    linarith
  · push_neg at hc
    exact hc

/-- Any save leaves a store with a positive prune trigger level strictly
below that level. -/
lemma save_patterns_length_lt {st : Store} (p : PatternInput) (now : Nat)
    (h : 0 < st.pruneLimit) :
    ((st.save p now).2.patterns.length : ℚ) < st.pruneLimit := by
  cases hf : st.patterns.find? (fun e => decide (e.sequence = p.sequence)) with
  | none =>
    rw [save_eq_created st p now hf]
    exact autoPrune_length_lt (afterCreate st p now) h
  | some e =>
    rw [save_eq_updated st p now hf]
    exact autoPrune_length_lt (afterUpdate st e p now) h

/-- C6: whenever the record count after a save reaches or exceeds
`pruneThreshold * maxPatterns`, the automatic prune inside that save brings
the count back under that fraction — so after every save the count is
strictly below the trigger level (whenever the level is positive), and with
`maxPatterns 10`, `pruneThreshold 0.8`, every sequence of saves from an
empty store ends strictly below `0.8 * 10 = 8`. -/
theorem save_autoPrune_bound :
    (∀ (st : Store) (p : PatternInput) (now : Nat),
      0 < st.pruneLimit →
      ((st.save p now).2.patterns.length : ℚ) < st.pruneLimit) ∧
    (∀ inputs : List (PatternInput × Nat),
      ((({ maxPatterns := 10 } : Store).saveMany inputs).patterns.length : ℚ) <
        (4 / 5) * 10) := by
  constructor
  · intro st p now h
    exact save_patterns_length_lt p now h
  · have key : ∀ (inputs : List (PatternInput × Nat)) (st : Store),
        st.maxPatterns = 10 → st.pruneThreshold = 4 / 5 →
        ((st.patterns.length : ℚ) < 8) →
        (((st.saveMany inputs).patterns.length : ℚ) < 8) := by
      intro inputs
      induction inputs with
      | nil =>
        intro st _ _ hlen
        simpa [Store.saveMany] using hlen
      | cons i is ih =>
        intro st hmax hth hlen
        have hstep : st.saveMany (i :: is) = ((st.save i.1 i.2).2).saveMany is := by
          simp [Store.saveMany]
        rw [hstep]
        apply ih
        · rw [save_maxPatterns]; exact hmax
        · rw [save_pruneThreshold]; exact hth
        · have hlim : (0 : ℚ) < st.pruneLimit := by
            rw [Store.pruneLimit, hmax, hth]
            norm_num
          have hbound := save_patterns_length_lt i.1 i.2 hlim
          rw [Store.pruneLimit, hmax, hth] at hbound
          have h8 : (4 / 5 : ℚ) * ((10 : ℕ) : ℚ) = 8 := by norm_num
          rw [h8] at hbound
          exact hbound
    intro inputs
    have h0 : ((({ maxPatterns := 10 } : Store)).patterns.length : ℚ) < 8 := by
      norm_num
    have hfin := key inputs { maxPatterns := 10 } rfl rfl h0
    have h8 : ((4 : ℚ) / 5) * 10 = 8 := by norm_num
    rw [h8]
    exact hfin

/-- C6 witness: the bound applied at a single save into the default store. -/
theorem save_autoPrune_bound_witness :
    (0 : ℚ) < Store.empty.pruneLimit ∧
    ((Store.empty.save { sequence := ["a", "b", "c"] } 0).2.patterns.length : ℚ) <
      Store.empty.pruneLimit :=
  ⟨by norm_num [Store.pruneLimit, Store.empty],
    save_autoPrune_bound.1 Store.empty { sequence := ["a", "b", "c"] } 0
      (by norm_num [Store.pruneLimit, Store.empty])⟩

end PatternLearning
